import Mathlib

/-!
Shallow embedding of `pkg/server/smtp/listener.go` (inbucket SMTP listener
core): server construction with TLS bootstrap (`NewServer`), startup
(`Start`), the accept/dispatch loop (`serve`), session tracking and
draining (`Drain`), and the fatal-error notification channel (`Notify`).

Go durations are modelled as nanosecond counts (`Nat`), matching
`time.Duration`.  External effects (certificate loading, address
resolution, listener binding, the outcome of each `Accept` call) are
supplied as explicit inputs, so every run of the core is a pure function
of the server value and its environment.
-/

namespace InbucketSMTP

/-- One millisecond in nanoseconds (`time.Millisecond`); Go
`time.Duration` values are modelled as nanosecond counts in `Nat`. -/
def millisecond : Nat := 1000000

/-- One second in nanoseconds (`time.Second`). -/
def second : Nat := 1000000000

/-- An opaque Go `error` value, identified by its message. -/
structure Err where
  msg : String
deriving DecidableEq, Repr

/-- An opaque `tls.Certificate`; `data = 0` is the zero value that
`tls.LoadX509KeyPair` returns alongside a non-nil error. -/
structure Certificate where
  data : Nat := 0
deriving DecidableEq, Repr

/-- The zero-value `tls.Certificate`. -/
def zeroCertificate : Certificate := {}

/-- The part of `tls.Config` this core touches: its certificate list. -/
structure TLSConfig where
  Certificates : List Certificate := []
deriving DecidableEq, Repr

/-- The fields of `config.SMTP` referenced by `listener.go`. -/
structure SMTPConfig where
  Addr : String
  TLSEnabled : Bool
  ForceTLS : Bool
  TLSCert : String
  TLSPrivKey : String
deriving DecidableEq, Repr

/-- Severity levels of the zerolog calls appearing in `listener.go`. -/
inductive LogLevel where
  | debug
  | info
  | warn
  | error
deriving DecidableEq, Repr

/-- A single log emission: severity and rendered message. -/
structure LogEvent where
  level : LogLevel
  msg : String
deriving DecidableEq, Repr

/-- The `notify` channel (`chan error` of capacity 1): the values sent so
far, in order, and whether `close` has been called. -/
structure NotifyChan where
  sent : List Err := []
  closed : Bool := false
deriving DecidableEq, Repr

/-- The `Server` struct of `listener.go`.  The collaborator references
(`manager`, `addrPolicy`, `extHost`) are opaque to the core and carry no
behaviour, so they are left out of the state; `wg` is modelled by its
counter value, `listener` by an optional handle. -/
structure Server where
  config : SMTPConfig
  tlsConfig : TLSConfig
  listener : Option Nat := none
  wgCount : Nat := 0
  notify : NotifyChan := {}
deriving DecidableEq, Repr

/-- Embedding of `NewServer`: builds the TLS context, absorbing any
certificate-load failure (the outcome of `tls.LoadX509KeyPair` on the
configured paths is the `loadResult` input; on failure Go's multi-value
assignment still stores the returned zero certificate in slot 0 and the
local copy of the config gets `TLSEnabled = false`).  Returns the
constructed server together with the log events emitted. -/
def NewServer (smtpConfig : SMTPConfig) (loadResult : Except Err Certificate) :
    Server × List LogEvent :=
  if smtpConfig.TLSEnabled then
    match loadResult with
    | .error e =>
        ({ config := { smtpConfig with TLSEnabled := false }
           tlsConfig := { Certificates := [zeroCertificate] }
           listener := none
           wgCount := 0
           notify := {} },
         [{ level := .error, msg := "Failed loading X509 KeyPair: " ++ e.msg },
          { level := .error, msg := "Disabling STARTTLS support" }])
    | .ok cert =>
        ({ config := smtpConfig
           tlsConfig := { Certificates := [cert] }
           listener := none
           wgCount := 0
           notify := {} },
         [{ level := .debug, msg := "STARTTLS feature available" }])
  else
    ({ config := smtpConfig
       tlsConfig := { Certificates := [] }
       listener := none
       wgCount := 0
       notify := {} },
     [])

/-- Outcome of one `s.listener.Accept()` call, as the accept loop
classifies it: a successful connection, an error that is a `net.Error`
with `Timeout() == true`, or any other (permanent) error together with
whether `ctx.Done()` is already closed when the loop checks it. -/
inductive AcceptEvent where
  | success (conn : Nat)
  | timeout (e : Err)
  | perm (e : Err) (ctxDone : Bool)
deriving DecidableEq, Repr

/-- Whether the accept loop is still iterating, or how it returned. -/
inductive ServeStatus where
  | running
  | cleanShutdown
  | fatalAccept
deriving DecidableEq, Repr

/-- State of one run of `serve`: the loop-carried variables (`tempDelay`,
`sessionID`), the shared server state it mutates (`wgCount`, `notify`),
and the observable effects accumulated so far (dispatched handlers with
their session identifiers, the `expConnectsTotal` metric, the sleeps
performed, the log events emitted). -/
structure ServeState where
  tempDelay : Nat := 0
  sessionID : Nat := 1
  dispatched : List (Nat × Nat) := []
  wgCount : Nat := 0
  connectsTotal : Nat := 0
  sleeps : List Nat := []
  logs : List LogEvent := []
  notify : NotifyChan := {}
  status : ServeStatus := .running
deriving DecidableEq, Repr

/-- The backoff update performed in the timeout branch of `serve`: if
`tempDelay` is zero set it to 5ms, otherwise double it; then cap at 1s. -/
def nextDelay (d : Nat) : Nat :=
  let d' := if d = 0 then 5 * millisecond else d * 2
  if d' > 1 * second then 1 * second else d'

/-- One iteration of the `for sessionID := 1; ; sessionID++` loop body of
`serve`, on the given `Accept` outcome.  Note that the loop's post
statement `sessionID++` runs at the end of every iteration that does not
`return`, including the timeout branch (Go's `continue` executes the post
statement). -/
def serveStep (st : ServeState) (ev : AcceptEvent) : ServeState :=
  match ev with
  | .timeout _e =>
      let d := nextDelay st.tempDelay
      { st with
        tempDelay := d
        logs := st.logs ++
          [{ level := .error
             msg := "SMTP accept timeout; retrying in " ++ toString d }]
        sleeps := st.sleeps ++ [d]
        sessionID := st.sessionID + 1 }
  | .perm e ctxDone =>
      if ctxDone then
        { st with status := .cleanShutdown }
      else
        { st with
          notify := { sent := st.notify.sent ++ [e], closed := true }
          status := .fatalAccept }
  | .success conn =>
      { st with
        tempDelay := 0
        connectsTotal := st.connectsTotal + 1
        wgCount := st.wgCount + 1
        dispatched := st.dispatched ++ [(st.sessionID, conn)]
        sessionID := st.sessionID + 1 }

/-- The `serve` loop, consuming the sequence of `Accept` outcomes the
environment produces.  Once a `perm` event makes the loop `return`
(status no longer `running`), later events are not consumed. -/
def serveLoop (st : ServeState) : List AcceptEvent → ServeState
  | [] => st
  | ev :: evs =>
      if st.status = .running then serveLoop (serveStep st ev) evs else st

/-- The accept-loop state at the top of `serve`: `tempDelay` zero,
`sessionID` one, sharing the server's wait-group counter and notify
channel. -/
def initServeState (s : Server) : ServeState :=
  { tempDelay := 0
    sessionID := 1
    dispatched := []
    wgCount := s.wgCount
    connectsTotal := 0
    sleeps := []
    logs := []
    notify := s.notify
    status := .running }

/-- Environment of one `Start` call: the result of
`net.ResolveTCPAddr("tcp4", ...)`, the result of the `tls.Listen` /
`net.ListenTCP` bind, and the sequence of `Accept` outcomes seen by the
spawned `serve` goroutine. -/
structure StartEnv where
  resolveResult : Except Err Unit
  listenResult : Except Err Nat
  events : List AcceptEvent
deriving Repr

/-- How a whole run of `Start` (plus its `serve` goroutine) ended. -/
inductive RunOutcome where
  | resolveFailed
  | bindFailed
  | serveRan (final : ServeStatus)
deriving DecidableEq, Repr

/-- Result of one run of `Start`: the final server state, whether the
ready callback was invoked, whether the `serve` goroutine was launched,
whether the TLS-wrapped listen path was taken, the final accept-loop
state when `serve` ran, and the outcome. -/
structure RunResult where
  server : Server
  readyInvoked : Bool
  serveStarted : Bool
  usedTLSListen : Bool
  serveState : Option ServeState
  outcome : RunOutcome
deriving DecidableEq, Repr

/-- Embedding of `Start` composed with the `serve` goroutine it launches.
Resolution failure and bind failure each push the error on `notify`,
close it and return before `readyFunc` or `serve`.  On success the
listener handle is stored, `serve` runs on the event sequence, and the
shared `wgCount` and `notify` reflect the loop's effects.  (`Start`
itself then blocks on `ctx.Done()` and closes the listener; closing only
feeds `serve` its final `perm` event, already part of `events`.) -/
def startRun (s : Server) (env : StartEnv) : RunResult :=
  match env.resolveResult with
  | .error e =>
      { server := { s with notify := { sent := s.notify.sent ++ [e], closed := true } }
        readyInvoked := false
        serveStarted := false
        usedTLSListen := false
        serveState := none
        outcome := .resolveFailed }
  | .ok _ =>
      match env.listenResult with
      | .error e =>
          { server := { s with notify := { sent := s.notify.sent ++ [e], closed := true } }
            readyInvoked := false
            serveStarted := false
            usedTLSListen := s.config.ForceTLS
            serveState := none
            outcome := .bindFailed }
      | .ok handle =>
          let stF := serveLoop (initServeState { s with listener := some handle }) env.events
          { server := { s with
              listener := some handle
              wgCount := stF.wgCount
              notify := stF.notify }
            readyInvoked := true
            serveStarted := true
            usedTLSListen := s.config.ForceTLS
            serveState := some stF
            outcome := .serveRan stF.status }

/-- Embedding of `Drain`: `s.wg.Wait()` mutates no server field; its
blocking behaviour is modelled by `drainReturns` below. -/
def Drain (s : Server) : Server := s

/-- Embedding of `Notify`: returns the receive side of the notify
channel, mutating nothing. -/
def Notify (s : Server) : NotifyChan := s.notify

/-- An operation on the session tracker (`sync.WaitGroup` counter):
`inc` is the accept loop's `s.wg.Add(1)`, `dec` is a session handler's
terminal `Done`. -/
inductive TrackerOp where
  | inc
  | dec
deriving DecidableEq, Repr

/-- The wait-group counter after a trace of tracker operations.
Modelled from the spec: `sync.WaitGroup` (Go standard library, not part
of this repository) keeps a counter moved by `Add`/`Done`, and `Wait`
blocks until it reaches zero. -/
def trackerCount (ops : List TrackerOp) : Int :=
  ops.foldl (fun c op => match op with | .inc => c + 1 | .dec => c - 1) 0

/-- Whether a `Drain` (`wg.Wait`) call unblocks at the point reached
after `ops`: exactly when the wait-group counter is zero.
Modelled from the spec: `sync.WaitGroup.Wait` returns once the counter
is zero. -/
def drainReturns (ops : List TrackerOp) : Prop := trackerCount ops = 0

instance (ops : List TrackerOp) : Decidable (drainReturns ops) := by
  unfold drainReturns; infer_instance

/-- Number of successful accepts in an event sequence. -/
def successCount (evts : List AcceptEvent) : Nat :=
  evts.countP (fun ev => match ev with | .success _ => true | _ => false)

/-- Indices (0-based) of the successful accepts in an event sequence. -/
def successIndices : List AcceptEvent → List Nat
  | [] => []
  | ev :: evs =>
      match ev with
      | .success _ => 0 :: (successIndices evs).map (· + 1)
      | _ => (successIndices evs).map (· + 1)

/-- Whether an `Accept` outcome is a permanent (non-timeout) error. -/
def isPerm : AcceptEvent → Bool
  | .perm _ _ => true
  | _ => false

/-- Event sequences an uninterrupted accept loop can consume without
returning: no permanent error occurs. -/
def noPermEvent (evts : List AcceptEvent) : Prop :=
  ∀ ev ∈ evts, isPerm ev = false

instance (evts : List AcceptEvent) : Decidable (noPermEvent evts) := by
  unfold noPermEvent; infer_instance

/-- The delay slept on the i-th of a maximal run of consecutive transient
failures: 5ms doubled i times, capped at 1s. -/
def expectedDelay (i : Nat) : Nat :=
  min (5 * millisecond * 2 ^ i) (1 * second)

/-- A run of `n` consecutive transient accept failures. -/
def timeouts (n : Nat) (e : Err) : List AcceptEvent :=
  List.replicate n (.timeout e)

/-! ## Helper lemmas -/

/-- Once the accept loop has returned, no further events are consumed. -/
theorem serveLoop_stopped (st : ServeState) (evts : List AcceptEvent)
    (h : st.status ≠ .running) : serveLoop st evts = st := by
  cases evts with
  | nil => rfl
  | cons ev evs => simp [serveLoop, h]

/-- While the loop is running, it consumes the next event. -/
theorem serveLoop_cons (st : ServeState) (ev : AcceptEvent)
    (evs : List AcceptEvent) (h : st.status = .running) :
    serveLoop st (ev :: evs) = serveLoop (serveStep st ev) evs := by
  simp [serveLoop, h]

/-- A freshly constructed server has an empty, unclosed notify channel. -/
theorem NewServer_notify (cfg : SMTPConfig) (loadR : Except Err Certificate) :
    (NewServer cfg loadR).1.notify = {} := by
  cases hcfg : cfg.TLSEnabled <;> cases loadR <;> simp [NewServer, hcfg]

/-- The backoff update sends `min a 1s` to `min (a * 2) 1s` for positive `a`. -/
theorem nextDelay_min (a : Nat) (ha : 0 < a) :
    nextDelay (min a (1 * second)) = min (a * 2) (1 * second) := by
  simp only [nextDelay, second, millisecond]
  split_ifs <;> omega

/-- The backoff update walks the expected delay sequence. -/
theorem nextDelay_expected (i : Nat) :
    nextDelay (expectedDelay i) = expectedDelay (i + 1) := by
  have ha : 0 < 5 * millisecond * 2 ^ i := by
    unfold millisecond; positivity
  have h := nextDelay_min (5 * millisecond * 2 ^ i) ha
  unfold expectedDelay
  rw [pow_succ, ← mul_assoc]
  exact h

/-- The first backoff delay is 5ms. -/
theorem nextDelay_zero : nextDelay 0 = 5 * millisecond := by
  unfold nextDelay millisecond second
  norm_num

/-- The first expected delay is 5ms. -/
theorem expectedDelay_zero : expectedDelay 0 = 5 * millisecond := by
  unfold expectedDelay millisecond second
  norm_num

/-- Expected delays never exceed the 1s cap. -/
theorem expectedDelay_le (i : Nat) : expectedDelay i ≤ 1 * second :=
  Nat.min_le_right _ _

/-- Expected delays are positive. -/
theorem expectedDelay_pos (i : Nat) : 0 < expectedDelay i := by
  refine lt_min ?_ ?_
  · unfold millisecond; positivity
  · unfold second; norm_num

/-- Each expected delay is the previous one doubled, capped at 1s. -/
theorem expectedDelay_succ (i : Nat) :
    expectedDelay (i + 1) = min (expectedDelay i * 2) (1 * second) := by
  rw [← nextDelay_expected]
  have ha := expectedDelay_pos i
  have hle : expectedDelay i ≤ 1 * second := Nat.min_le_right _ _
  generalize expectedDelay i = d at ha hle ⊢
  simp only [nextDelay, second] at *
  split_ifs <;> omega

/-- The success indices of an event sequence are strictly increasing. -/
theorem successIndices_pairwise (evts : List AcceptEvent) :
    List.Pairwise (· < ·) (successIndices evts) := by
  induction evts with
  | nil => simp [successIndices]
  | cons ev evs ih =>
    have hmap : List.Pairwise (· < ·) ((successIndices evs).map (· + 1)) :=
      (List.pairwise_map).mpr (ih.imp (by omega))
    cases ev with
    | success conn =>
      refine List.Pairwise.cons ?_ hmap
      intro b hb
      obtain ⟨a, _, rfl⟩ := List.mem_map.mp hb
      omega
    | timeout e => exact hmap
    | perm e d => exact hmap

/-- While no permanent error occurs, the loop keeps running, increments
the session counter once per consumed event (successful or not), and
dispatches identifier `st.sessionID + i` exactly for each success at
index `i`. -/
theorem serveLoop_noPerm (evts : List AcceptEvent) :
    ∀ st : ServeState, st.status = .running → noPermEvent evts →
      (serveLoop st evts).dispatched.map Prod.fst
          = st.dispatched.map Prod.fst
            ++ (successIndices evts).map (fun i => st.sessionID + i) ∧
      (serveLoop st evts).sessionID = st.sessionID + evts.length ∧
      (serveLoop st evts).status = .running := by
  induction evts with
  | nil => intro st hr _; simp [serveLoop, successIndices, hr]
  | cons ev evs ih =>
    intro st hrun hnp
    have hnp' : noPermEvent evs := fun x hx => hnp x (List.mem_cons_of_mem _ hx)
    have hperm : isPerm ev = false := hnp ev (List.mem_cons_self _ _)
    rw [serveLoop_cons st ev evs hrun]
    cases ev with
    | perm e d => simp [isPerm] at hperm
    | success conn =>
      obtain ⟨h1, h2, h3⟩ := ih (serveStep st (.success conn)) hrun hnp'
      refine ⟨?_, ?_, h3⟩
      · rw [h1]
        simp only [serveStep, successIndices, List.map_append, List.map_map,
          List.map_cons, List.append_assoc, List.cons_append, List.nil_append,
          List.singleton_append, Nat.add_zero]
        congr 2
        refine List.map_congr_left ?_
        intro a _
        simp only [Function.comp_apply]
        omega
      · rw [h2]
        simp only [serveStep, List.length_cons]
        omega
    | timeout e =>
      obtain ⟨h1, h2, h3⟩ := ih (serveStep st (.timeout e)) hrun hnp'
      refine ⟨?_, ?_, h3⟩
      · rw [h1]
        simp only [serveStep, successIndices, List.map_map]
        congr 1
        refine List.map_congr_left ?_
        intro a _
        simp only [Function.comp_apply]
        omega
      · rw [h2]
        simp only [serveStep, List.length_cons]
        omega

/-- From a backoff of `expectedDelay i`, `n` further consecutive
transient failures sleep the delays `expectedDelay (i+1), …`. -/
theorem serveLoop_timeouts_aux (e : Err) (n : Nat) :
    ∀ (st : ServeState) (i : Nat), st.status = .running →
      st.tempDelay = expectedDelay i →
      (serveLoop st (timeouts n e)).sleeps
          = st.sleeps ++ (List.range n).map (fun j => expectedDelay (i + 1 + j)) ∧
      (serveLoop st (timeouts n e)).status = .running := by
  induction n with
  | zero => intro st i hr _; simp [timeouts, serveLoop, hr]
  | succ n ih =>
    intro st i hrun hd
    have hcons : timeouts (n + 1) e = AcceptEvent.timeout e :: timeouts n e := by
      simp [timeouts, List.replicate_succ]
    rw [hcons, serveLoop_cons st _ _ hrun]
    have hstep : (serveStep st (.timeout e)).tempDelay = expectedDelay (i + 1) := by
      simp only [serveStep]
      rw [hd, nextDelay_expected]
    obtain ⟨h1, h2⟩ := ih (serveStep st (.timeout e)) (i + 1) hrun hstep
    refine ⟨?_, h2⟩
    rw [h1]
    simp only [serveStep]
    rw [hd, nextDelay_expected]
    rw [List.range_succ_eq_map, List.map_cons, List.map_map]
    simp only [Nat.add_zero, List.append_assoc, List.singleton_append]
    congr 2
    refine List.map_congr_left ?_
    intro a _
    simp only [Function.comp_apply]
    congr 1
    omega

/-- From a zero backoff, `n` consecutive transient failures sleep exactly
the delays `expectedDelay 0, …, expectedDelay (n-1)`. -/
theorem serveLoop_timeouts (e : Err) (n : Nat) (st : ServeState)
    (hrun : st.status = .running) (h0 : st.tempDelay = 0) :
    (serveLoop st (timeouts n e)).sleeps
        = st.sleeps ++ (List.range n).map expectedDelay := by
  cases n with
  | zero => simp [timeouts, serveLoop]
  | succ n =>
    have hcons : timeouts (n + 1) e = AcceptEvent.timeout e :: timeouts n e := by
      simp [timeouts, List.replicate_succ]
    rw [hcons, serveLoop_cons st _ _ hrun]
    have hstep : (serveStep st (.timeout e)).tempDelay = expectedDelay 0 := by
      simp only [serveStep]
      rw [h0, nextDelay_zero, expectedDelay_zero]
    obtain ⟨h1, _⟩ := serveLoop_timeouts_aux e n (serveStep st (.timeout e)) 0 hrun hstep
    rw [h1]
    simp only [serveStep]
    rw [h0, nextDelay_zero, ← expectedDelay_zero]
    rw [List.range_succ_eq_map, List.map_cons, List.map_map]
    simp only [List.append_assoc, List.singleton_append]
    congr 2
    refine List.map_congr_left ?_
    intro a _
    simp only [Function.comp_apply]
    congr 1
    omega

/-- Starting from an empty notify channel, the loop closes the channel
with exactly one error exactly when it ends in the fatal-accept state,
and leaves the channel untouched otherwise. -/
theorem serveLoop_notify_classify (evts : List AcceptEvent) :
    ∀ st : ServeState, st.notify = {} → st.status = .running →
      ((serveLoop st evts).status = .fatalAccept →
          (serveLoop st evts).notify.sent.length = 1 ∧
          (serveLoop st evts).notify.closed = true) ∧
      ((serveLoop st evts).status ≠ .fatalAccept →
          (serveLoop st evts).notify = {}) := by
  induction evts with
  | nil => intro st hn hr; simp [serveLoop, hr, hn]
  | cons ev evs ih =>
    intro st hn hr
    rw [serveLoop_cons st ev evs hr]
    cases ev with
    | success conn =>
      exact ih (serveStep st (.success conn)) (by simp [serveStep, hn]) hr
    | timeout e =>
      exact ih (serveStep st (.timeout e)) (by simp [serveStep, hn]) hr
    | perm e d =>
      cases d with
      | true =>
        rw [serveLoop_stopped _ _ (by simp [serveStep])]
        simp [serveStep, hn]
      | false =>
        rw [serveLoop_stopped _ _ (by simp [serveStep])]
        simp [serveStep, hn]

/-- The loop's wait-group counter counts exactly the dispatched sessions. -/
theorem serveLoop_wg_dispatched (evts : List AcceptEvent) :
    ∀ st : ServeState, st.wgCount = st.dispatched.length →
      (serveLoop st evts).wgCount = (serveLoop st evts).dispatched.length := by
  induction evts with
  | nil => intro st h; exact h
  | cons ev evs ih =>
    intro st h
    by_cases hr : st.status = .running
    · rw [serveLoop_cons st ev evs hr]
      apply ih
      cases ev with
      | success conn => simp [serveStep, h]
      | timeout e => simpa [serveStep] using h
      | perm e d => cases d <;> simp [serveStep, h]
    · rw [serveLoop_stopped st _ hr]; exact h

/-- Folding the tracker operations from any start value adds the number
of increments and subtracts the number of decrements. -/
theorem trackerFold_eq (ops : List TrackerOp) :
    ∀ c : Int,
      ops.foldl (fun c op => match op with | .inc => c + 1 | .dec => c - 1) c
        = c + (ops.count .inc : Int) - (ops.count .dec : Int) := by
  induction ops with
  | nil => intro c; simp
  | cons op ops ih =>
    intro c
    cases op <;> simp only [List.foldl_cons, ih, List.count_cons] <;>
      simp <;> omega

/-- The tracker count is the number of increments minus decrements. -/
theorem trackerCount_eq (ops : List TrackerOp) :
    trackerCount ops = (ops.count .inc : Int) - (ops.count .dec : Int) := by
  unfold trackerCount
  rw [trackerFold_eq]
  omega

/-! ## Claim theorems -/

/-- C1 (counterexample): after a transient accept failure followed by a
successful accept, the dispatched handler receives identifier 2, not 1:
the identifiers are not the gapless sequence 1, 2, 3, …, because the
loop's post statement `sessionID++` also runs on failed accept
attempts. -/
theorem sessionIds_gapless_counterexample :
    ((serveLoop {} [AcceptEvent.timeout ⟨"i/o timeout"⟩,
        AcceptEvent.success 0]).dispatched.map Prod.fst = [2]) ∧
    ¬ ((serveLoop {} [AcceptEvent.timeout ⟨"i/o timeout"⟩,
        AcceptEvent.success 0]).dispatched.map Prod.fst
      = List.range' 1 (successCount [AcceptEvent.timeout ⟨"i/o timeout"⟩,
          AcceptEvent.success 0])) := by
  decide

/-- C1 (corrected): within one run of the accept loop the session counter
starts at 1 and increments on every accept attempt, successful or
transient-failure; the handler dispatched for the attempt at 0-based
index `i` receives identifier `i + 1`, so identifiers are assigned in
accept order, strictly increasing with no repeats, but with gaps across
failed attempts (they are 1, 2, 3, … exactly when no attempt fails). -/
theorem sessionIds_increase_every_attempt (evts : List AcceptEvent)
    (hnp : noPermEvent evts) :
    ((serveLoop {} evts).dispatched.map Prod.fst
        = (successIndices evts).map (fun i => i + 1)) ∧
    List.Pairwise (· < ·) ((serveLoop {} evts).dispatched.map Prod.fst) ∧
    (serveLoop {} evts).sessionID = 1 + evts.length := by
  obtain ⟨h1, h2, _⟩ := serveLoop_noPerm evts {} rfl hnp
  refine ⟨?_, ?_, h2⟩
  · rw [h1]
    simp only [ServeState.dispatched, List.map_nil, List.nil_append]
    refine List.map_congr_left ?_
    intro a _
    show 1 + a = a + 1
    omega
  · rw [h1]
    simp only [ServeState.dispatched, List.map_nil, List.nil_append]
    exact (List.pairwise_map).mpr ((successIndices_pairwise evts).imp (by omega))

/-- Witness for the corrected C1 at a concrete run. -/
theorem sessionIds_increase_every_attempt_witness :
    noPermEvent [AcceptEvent.timeout ⟨"t"⟩, AcceptEvent.success 5,
      AcceptEvent.success 6] ∧
    (serveLoop {} [AcceptEvent.timeout ⟨"t"⟩, AcceptEvent.success 5,
        AcceptEvent.success 6]).dispatched.map Prod.fst = [2, 3] :=
  ⟨by decide, by
    rw [(sessionIds_increase_every_attempt _ (by decide)).1]
    decide⟩

/-- C3 (counterexample): with TLS enabled, force-TLS set and a failing
certificate load, `NewServer` leaves the force-TLS flag enabled (it
disables the TLS-enabled/STARTTLS flag instead), so a subsequent
successful `Start` takes the TLS-wrapped listen path, not plaintext. -/
theorem tls_failure_forcetls_counterexample :
    ((NewServer ⟨"0.0.0.0:2500", true, true, "missing.crt", "missing.key"⟩
        (.error ⟨"open missing.crt: no such file or directory"⟩)).1.config.ForceTLS
      = true) ∧
    ((startRun (NewServer ⟨"0.0.0.0:2500", true, true, "missing.crt", "missing.key"⟩
          (.error ⟨"open missing.crt: no such file or directory"⟩)).1
        { resolveResult := .ok (), listenResult := .ok 0,
          events := [] }).usedTLSListen = true) := by
  decide

/-- C3 (corrected): for every configuration with the TLS-enabled flag set
whose certificate/key pair fails to load, `NewServer` logs the error,
disables the TLS-enabled (STARTTLS) flag — leaving the force-TLS flag
unchanged — and still returns a constructed Server; a subsequent `Start`
with a valid address binds a listener and invokes the ready callback,
taking the plaintext path exactly when force-TLS is disabled. -/
theorem tls_failure_disables_starttls_only (cfg : SMTPConfig) (e : Err)
    (handle : Nat) (evts : List AcceptEvent) :
    ((NewServer { cfg with TLSEnabled := true } (.error e)).1.config.TLSEnabled
      = false) ∧
    ((NewServer { cfg with TLSEnabled := true } (.error e)).1.config.ForceTLS
      = cfg.ForceTLS) ∧
    ((NewServer { cfg with TLSEnabled := true } (.error e)).2
      = [{ level := .error, msg := "Failed loading X509 KeyPair: " ++ e.msg },
         { level := .error, msg := "Disabling STARTTLS support" }]) ∧
    ((startRun (NewServer { cfg with TLSEnabled := true } (.error e)).1
        { resolveResult := .ok (), listenResult := .ok handle,
          events := evts }).readyInvoked = true) ∧
    ((startRun (NewServer { cfg with TLSEnabled := true } (.error e)).1
        { resolveResult := .ok (), listenResult := .ok handle,
          events := evts }).usedTLSListen = cfg.ForceTLS) := by
  refine ⟨rfl, rfl, rfl, rfl, rfl⟩

/-- C4 (confirmed): from a zero carried backoff, a maximal run of `n`
consecutive transient accept failures sleeps the delays
`expectedDelay 0, …, expectedDelay (n-1)`: 5ms first, then doubling,
capped at 1s; a successful accept resets the carried backoff to zero,
so the transient failure following a success sleeps 5ms again. -/
theorem backoff_doubling_capped_reset (st : ServeState) (e : Err) (n : Nat)
    (hrun : st.status = .running) (h0 : st.tempDelay = 0) :
    ((serveLoop st (timeouts n e)).sleeps
        = st.sleeps ++ (List.range n).map expectedDelay) ∧
    (expectedDelay 0 = 5 * millisecond) ∧
    (∀ i, expectedDelay (i + 1) = min (expectedDelay i * 2) (1 * second)) ∧
    (∀ i, expectedDelay i ≤ 1 * second) ∧
    (∀ conn, (serveStep st (.success conn)).tempDelay = 0) ∧
    (∀ conn e2, (serveStep (serveStep st (.success conn)) (.timeout e2)).sleeps
        = (serveStep st (.success conn)).sleeps ++ [5 * millisecond]) := by
  refine ⟨serveLoop_timeouts e n st hrun h0, expectedDelay_zero,
    expectedDelay_succ, expectedDelay_le, fun conn => rfl, fun conn e2 => ?_⟩
  simp [serveStep, nextDelay_zero]

/-- Witness for C4 at a concrete run of three consecutive timeouts. -/
theorem backoff_doubling_capped_reset_witness :
    (({} : ServeState).tempDelay = 0) ∧
    (serveLoop {} (timeouts 3 ⟨"t"⟩)).sleeps
        = [5 * millisecond, 10 * millisecond, 20 * millisecond] :=
  ⟨rfl, by
    rw [(backoff_doubling_capped_reset {} ⟨"t"⟩ 3 rfl rfl).1]
    decide⟩

/-- C5 (confirmed): on a permanent accept failure the loop's behaviour is
decided solely by whether the cancellation signal is active: if active it
exits silently with the notify channel untouched; if not, it pushes the
error to the Fatal Notifier, closes it, and terminates permanently —
in both cases no later event is ever consumed. -/
theorem perm_failure_ctx_decides (st : ServeState) (e : Err)
    (evs : List AcceptEvent) (hrun : st.status = .running) :
    serveLoop st (AcceptEvent.perm e true :: evs)
        = { st with status := .cleanShutdown } ∧
    serveLoop st (AcceptEvent.perm e false :: evs)
        = { st with
            notify := { sent := st.notify.sent ++ [e], closed := true }
            status := .fatalAccept } := by
  constructor
  · rw [serveLoop_cons st _ _ hrun, serveLoop_stopped _ _ (by simp [serveStep])]
    rfl
  · rw [serveLoop_cons st _ _ hrun, serveLoop_stopped _ _ (by simp [serveStep])]
    rfl

/-- Witness for C5 at a concrete state and error. -/
theorem perm_failure_ctx_decides_witness :
    (({} : ServeState).status = .running) ∧
    (serveLoop {} [AcceptEvent.perm ⟨"p"⟩ true]).notify.sent = [] ∧
    (serveLoop {} [AcceptEvent.perm ⟨"p"⟩ false]).notify.sent = [⟨"p"⟩] :=
  ⟨rfl,
   by rw [(perm_failure_ctx_decides {} ⟨"p"⟩ [] rfl).1],
   by rw [(perm_failure_ctx_decides {} ⟨"p"⟩ [] rfl).2]; rfl⟩

/-- C6 (confirmed): when address resolution or listener binding fails
during `Start` on a freshly constructed server, exactly one error is
pushed to the Fatal Notifier, the notifier is closed, and `Start`
returns with the ready callback never invoked and the accept loop never
started. -/
theorem start_failure_fatal_path (cfg : SMTPConfig)
    (loadR : Except Err Certificate) (e : Err) (lr : Except Err Nat)
    (evts : List AcceptEvent) :
    ((startRun (NewServer cfg loadR).1
        { resolveResult := .error e, listenResult := lr,
          events := evts }).server.notify.sent = [e] ∧
     (startRun (NewServer cfg loadR).1
        { resolveResult := .error e, listenResult := lr,
          events := evts }).server.notify.closed = true ∧
     (startRun (NewServer cfg loadR).1
        { resolveResult := .error e, listenResult := lr,
          events := evts }).readyInvoked = false ∧
     (startRun (NewServer cfg loadR).1
        { resolveResult := .error e, listenResult := lr,
          events := evts }).serveStarted = false) ∧
    ((startRun (NewServer cfg loadR).1
        { resolveResult := .ok (), listenResult := .error e,
          events := evts }).server.notify.sent = [e] ∧
     (startRun (NewServer cfg loadR).1
        { resolveResult := .ok (), listenResult := .error e,
          events := evts }).server.notify.closed = true ∧
     (startRun (NewServer cfg loadR).1
        { resolveResult := .ok (), listenResult := .error e,
          events := evts }).readyInvoked = false ∧
     (startRun (NewServer cfg loadR).1
        { resolveResult := .ok (), listenResult := .error e,
          events := evts }).serveStarted = false) := by
  have hn := NewServer_notify cfg loadR
  constructor
  · refine ⟨?_, rfl, rfl, rfl⟩
    simp [startRun, hn]
  · refine ⟨?_, rfl, rfl, rfl⟩
    simp [startRun, hn]

/-- C8 (counterexample): a transient accept failure does not leave the
session-identifier counter unchanged — the loop's post statement
increments it from 1 to 2 — and the message logged is at error level,
not a warning. -/
theorem timeout_frame_counterexample :
    ((serveStep {} (AcceptEvent.timeout ⟨"i/o timeout"⟩)).sessionID = 2) ∧
    (({} : ServeState).sessionID = 1) ∧
    ((serveStep {} (AcceptEvent.timeout ⟨"i/o timeout"⟩)).logs.map LogEvent.level
      = [LogLevel.error]) := by
  decide

/-- C8 (corrected): on a transient accept failure the loop sleeps the
chosen backoff, logs an error-level message including the chosen delay,
and retries, leaving the Session Tracker count, the accepted-connections
metric, the dispatched list and the notify channel unchanged by that
iteration; the session-identifier counter, however, is incremented by
the loop's post statement. -/
theorem timeout_iteration_effects (st : ServeState) (e : Err) :
    ((serveStep st (.timeout e)).sleeps
        = st.sleeps ++ [nextDelay st.tempDelay]) ∧
    ((serveStep st (.timeout e)).logs = st.logs ++
        [{ level := .error
           msg := "SMTP accept timeout; retrying in "
             ++ toString (nextDelay st.tempDelay) }]) ∧
    ((serveStep st (.timeout e)).tempDelay = nextDelay st.tempDelay) ∧
    ((serveStep st (.timeout e)).status = st.status) ∧
    ((serveStep st (.timeout e)).wgCount = st.wgCount) ∧
    ((serveStep st (.timeout e)).connectsTotal = st.connectsTotal) ∧
    ((serveStep st (.timeout e)).dispatched = st.dispatched) ∧
    ((serveStep st (.timeout e)).notify = st.notify) ∧
    ((serveStep st (.timeout e)).sessionID = st.sessionID + 1) :=
  ⟨rfl, rfl, rfl, rfl, rfl, rfl, rfl, rfl, rfl⟩

/-- C9 (confirmed): no operation of the core after construction modifies
the stored configuration or the TLS context: every run of `Start`
together with its accept loop, as well as `Drain` and `Notify`, leaves
both fields at their construction-time values. -/
theorem config_tls_immutable (s : Server) (env : StartEnv) :
    ((startRun s env).server.config = s.config) ∧
    ((startRun s env).server.tlsConfig = s.tlsConfig) ∧
    (Drain s = s) ∧
    (Notify s = s.notify) := by
  obtain ⟨rr, lr, evts⟩ := env
  cases rr <;> cases lr <;> simp [startRun, Drain, Notify]

/-- C10 (confirmed): when TLS is enabled and the certificate load fails,
the constructed server's TLS context holds exactly one certificate, the
zero-value one (the slot is allocated before the load attempt and kept
on failure); with TLS disabled the certificate list stays empty for
every load outcome. -/
theorem tls_certificates_slot (cfg : SMTPConfig) (e : Err)
    (loadR : Except Err Certificate) :
    ((NewServer { cfg with TLSEnabled := true } (.error e)).1.tlsConfig.Certificates
        = [zeroCertificate]) ∧
    ((NewServer { cfg with TLSEnabled := false } loadR).1.tlsConfig.Certificates
        = []) := by
  cases loadR <;> exact ⟨rfl, rfl⟩

/-- C2 (counterexample): a run that terminates by clean shutdown via
cancellation — the permanent accept failure caused by the listener
close, with the cancellation signal active — leaves the Fatal Notifier
open: the channel is not closed on this termination path. -/
theorem notify_clean_shutdown_counterexample :
    ((startRun (NewServer ⟨"0.0.0.0:2500", false, false, "", ""⟩
          (.ok zeroCertificate)).1
        { resolveResult := .ok ()
          listenResult := .ok 0
          events := [AcceptEvent.perm ⟨"use of closed network connection"⟩ true] }).outcome
      = .serveRan .cleanShutdown) ∧
    ((startRun (NewServer ⟨"0.0.0.0:2500", false, false, "", ""⟩
          (.ok zeroCertificate)).1
        { resolveResult := .ok ()
          listenResult := .ok 0
          events := [AcceptEvent.perm ⟨"use of closed network connection"⟩ true] }).server.notify.closed
      = false) := by
  decide

/-- C2 (corrected): over the whole lifetime of a freshly constructed
Server the Fatal Notifier delivers at most one error, and it is closed
precisely on the fatal paths — startup resolution failure, startup bind
failure, or unexpected permanent accept failure — with closure implying
exactly one delivered error; on clean shutdown via cancellation (and in
any still-running state) the channel remains open. -/
theorem notify_at_most_one_closed_iff_fatal (cfg : SMTPConfig)
    (loadR : Except Err Certificate) (env : StartEnv) :
    ((startRun (NewServer cfg loadR).1 env).server.notify.sent.length ≤ 1) ∧
    ((startRun (NewServer cfg loadR).1 env).server.notify.closed = true ↔
      (startRun (NewServer cfg loadR).1 env).outcome = .resolveFailed ∨
      (startRun (NewServer cfg loadR).1 env).outcome = .bindFailed ∨
      (startRun (NewServer cfg loadR).1 env).outcome = .serveRan .fatalAccept) ∧
    ((startRun (NewServer cfg loadR).1 env).server.notify.closed = true →
      (startRun (NewServer cfg loadR).1 env).server.notify.sent.length = 1) ∧
    ((startRun (NewServer cfg loadR).1 env).outcome = .serveRan .cleanShutdown ∨
        (startRun (NewServer cfg loadR).1 env).outcome = .serveRan .running →
      (startRun (NewServer cfg loadR).1 env).server.notify = {}) := by
  have hn := NewServer_notify cfg loadR
  obtain ⟨rr, lr, evts⟩ := env
  cases rr with
  | error e => simp [startRun, hn]
  | ok u =>
    cases lr with
    | error e => simp [startRun, hn]
    | ok handle =>
      have hinit :
          (initServeState { (NewServer cfg loadR).1 with listener := some handle }).notify
            = {} := hn
      obtain ⟨hfat, hnotfat⟩ :=
        serveLoop_notify_classify evts
          (initServeState { (NewServer cfg loadR).1 with listener := some handle })
          hinit rfl
      simp only [startRun]
      set stF :=
        serveLoop (initServeState { (NewServer cfg loadR).1 with listener := some handle })
          evts with hstF
      cases hst : stF.status with
      | fatalAccept =>
        obtain ⟨hlen, hcl⟩ := hfat hst
        simp [hst, hcl, hlen]
      | running =>
        have hne : stF.notify = {} := hnotfat (by rw [hst]; simp)
        simp [hst, hne]
      | cleanShutdown =>
        have hne : stF.notify = {} := hnotfat (by rw [hst]; simp)
        simp [hst, hne]

/-- C7 (confirmed): `Drain` blocks on the session tracker: with zero
sessions in flight it returns immediately; the accept loop increments
the tracker exactly once per dispatched session; and when `Drain` is
called with `N` sessions in flight, it returns exactly once all `N`
of them have decremented, in whatever order they do so. -/
theorem drain_returns_iff_all_done (pre post : List TrackerOp) (N : Nat)
    (hpre : trackerCount pre = (N : Int))
    (hpost : ∀ op ∈ post, op = TrackerOp.dec) :
    drainReturns [] ∧
    (∀ evts : List AcceptEvent,
        (serveLoop ({} : ServeState) evts).wgCount
          = (serveLoop ({} : ServeState) evts).dispatched.length) ∧
    (drainReturns (pre ++ post) ↔ post.length = N) := by
  refine ⟨by decide, fun evts => serveLoop_wg_dispatched evts {} rfl, ?_⟩
  have hdec : post.count .dec = post.length :=
    List.count_eq_length.mpr (fun b hb => (hpost b hb).symm)
  have hinc : post.count .inc = 0 := by
    rw [List.count_eq_zero]
    intro h
    exact absurd (hpost _ h) (by decide)
  have h1 := trackerCount_eq pre
  have h2 := trackerCount_eq (pre ++ post)
  rw [List.count_append, List.count_append, hdec, hinc] at h2
  unfold drainReturns
  rw [h2]
  constructor <;> intro h <;> omega

/-- Witness for C7: two sessions in flight, `Drain` returns after both
decrement. -/
theorem drain_returns_iff_all_done_witness :
    (trackerCount [TrackerOp.inc, TrackerOp.inc] = (2 : Int)) ∧
    (drainReturns ([TrackerOp.inc, TrackerOp.inc]
        ++ [TrackerOp.dec, TrackerOp.dec]) ↔
      ([TrackerOp.dec, TrackerOp.dec] : List TrackerOp).length = 2) :=
  ⟨by decide,
   (drain_returns_iff_all_done [TrackerOp.inc, TrackerOp.inc]
      [TrackerOp.dec, TrackerOp.dec] 2 (by decide) (by decide)).2.2⟩

end InbucketSMTP
